import Mathlib

/-!
Shallow embedding of `jill/source.py`: the mirror-resolution and
availability-probing engine (ReleaseSource, SourceRegistry,
is_url_available, query_download_url).

External collaborators (urllib.parse, requests, and the repository modules
net_utils / filters / defaults, which are outside the embedded core) are
modelled as opaque functions bundled in an `Env` record.  Python dicts are
modelled as insertion-ordered association lists with "last write wins"
update (`dinsert`), matching CPython dict semantics.  Python exceptions
are modelled with `Except PyErr`.  The mutable per-source latency cache is
modelled by explicit state passing: stateful methods return the updated
object alongside their result.
-/

/-- Latency of a probe. `⊤` is the failure sentinel.
Modelled from the spec: `net_utils.port_response_time` (not part of the
embedded core) returns an elapsed time, or a failure sentinel that is
treated as infinite latency for ranking purposes. -/
abbrev Latency := WithTop Nat

/-- Python exceptions that the embedded code can raise. -/
inductive PyErr where
  | keyError
  | indexError
  | recursionError
  deriving DecidableEq, Repr

/-- Result of `requests.head(url, timeout)`: either a network-level failure
(`RequestException`) or a response with a status code and headers. -/
inductive HeadResult where
  | failure
  | response (status : Nat) (headers : List (String × String))
  deriving DecidableEq, Repr

/-- The opaque external collaborators of the core, per the spec's
interface list: URL parsing (`urlparse`), hostname resolution and latency
probing (`net_utils`, modelled from the spec), the scheme→port table
(`defaults.default_scheme_ports`, modelled from the spec), the template
substitution provider (`Template.substitute` composed with
`filters.generate_info`), and the HTTP head probe (`requests.head`). -/
structure Env where
  /-- `urlparse(url).netloc` -/
  netloc : String → String
  /-- `urlparse(url).scheme` -/
  scheme : String → String
  /-- Modelled from the spec: `net_utils.query_ip`, hostname → address. -/
  query_ip : String → String
  /-- Modelled from the spec: `defaults.default_scheme_ports[scheme]`,
  a fixed scheme → default-port table. -/
  scheme_port : String → Nat
  /-- Modelled from the spec: `net_utils.port_response_time(ip, port,
  timeout)`, elapsed time or the failure sentinel `⊤`. -/
  port_response_time : String → Nat → Nat → Latency
  /-- `Template(template).substitute(**generate_info(version, system,
  architecture))`; `none` models the `KeyError` a `string.Template`
  raises when a referenced placeholder is missing. -/
  substitute : String → String → String → String → Option String
  /-- `requests.head(url, timeout=timeout)`. -/
  head : String → Nat → HeadResult

/-- Python dict insert `d[k] = v`: replaces the value of an existing key
in place, otherwise appends at the end (CPython keeps first-insertion
order, last-written value). -/
def dinsert [DecidableEq α] : List (α × β) → α → β → List (α × β)
  | [], k, v => [(k, v)]
  | (k', v') :: rest, k, v =>
    if k = k' then (k, v) :: rest else (k', v') :: dinsert rest k v

/-- Python dict comprehension `{k: f(k) for k in ks}`. -/
def dictOf [DecidableEq α] (ks : List α) (f : α → β) : List (α × β) :=
  ks.foldl (fun d k => dinsert d k (f k)) []

/-- Python dict lookup `d[k]` / `k in d`. -/
def dlookup [DecidableEq α] : List (α × β) → α → Option β
  | [], _ => none
  | (k', v) :: rest, k => if k = k' then some v else dlookup rest k

/-- Python dict lookup `d[k]` at a call site where the key is known to be
present; `dflt` is returned on the unreachable missing-key branch. -/
def dget [DecidableEq α] (d : List (α × β)) (k : α) (dflt : β) : β :=
  (dlookup d k).getD dflt

/-- `class ReleaseSource` (one named mirror): stable and "latest" URL
template lists, a probe timeout, and the lazily populated latency cache
`self._latencies`. Templates are kept as their raw strings
(`Template(x).template == x`). -/
structure ReleaseSource where
  name : String
  url_templates : List String
  latest_url_templates : List String
  timeout : Nat := 2
  _latencies : List (String × Latency) := []
  deriving DecidableEq, Repr

namespace ReleaseSource

/-- Property `urls`: the raw stable template strings. -/
def urls (s : ReleaseSource) : List String := s.url_templates

/-- Property `latest_urls`: the raw "latest" template strings. -/
def latest_urls (s : ReleaseSource) : List String := s.latest_url_templates

/-- Body of the lazy branch of the `latencies` property: compute the
host → latency map for all hosts of `urls + latest_urls`, probing once
per distinct resolved address.  Also returns the number of
`port_response_time` probes performed (one per entry of
`ip_port_records`), used to observe re-probing. -/
def computeLatencies (env : Env) (s : ReleaseSource) :
    List (String × Latency) × Nat :=
  let url_list := s.urls ++ s.latest_urls
  let host_list := url_list.map env.netloc
  -- host_ip_records = {host: query_ip(host) for host in host_list}
  let host_ip_records := dictOf host_list env.query_ip
  -- ip_port_records = {host_ip_records[netloc(url)]: scheme_port[scheme(url)] for url in url_list}
  let ip_port_records := url_list.foldl
    (fun d url =>
      dinsert d (dget host_ip_records (env.netloc url) "")
        (env.scheme_port (env.scheme url))) []
  -- latency_records = {ip: port_response_time(ip, port, timeout) for ip, port in ...}
  let latency_records := ip_port_records.map
    (fun ipp => (ipp.1, env.port_response_time ipp.1 ipp.2 s.timeout))
  -- {host: latency_records[host_ip_records[host]] for host in host_list}
  (dictOf host_list
    (fun host => dget latency_records (dget host_ip_records host "") ⊤),
   ip_port_records.length)

/-- Property `latencies` with explicit state: returns the host → latency
map, the updated source (cache populated), and the number of latency
probes this access performed (`0` on a cache hit). -/
def latenciesSt (env : Env) (s : ReleaseSource) :
    List (String × Latency) × ReleaseSource × Nat :=
  if s._latencies.isEmpty then
    let mc := s.computeLatencies env
    (mc.1, { s with _latencies := mc.1 }, mc.2)
  else
    (s._latencies, s, 0)

/-- Method `get_url(plain_version, system, architecture)`: substitute the
selected template list, rank the resulting URLs by cached host latency
(populating the cache on first use), and return the lowest-latency URL.
`url_list[0]` on an empty list raises `IndexError`; a missing template
placeholder or a host absent from the cache raises `KeyError`.  The sort
key touches `self.latencies` only when `url_list` is nonempty (CPython
computes sort keys per element), so the empty case leaves the cache
untouched. -/
def get_url (env : Env) (s : ReleaseSource)
    (plain_version system architecture : String) :
    Except PyErr (String × ReleaseSource) :=
  let template_lists :=
    if plain_version = "latest" then s.latest_url_templates
    else s.url_templates
  match template_lists.mapM
      (fun t => env.substitute t plain_version system architecture) with
  | none => .error .keyError
  | some url_list =>
    match url_list with
    | [] => .error .indexError
    | _ :: _ =>
      let ls := s.latenciesSt env
      match url_list.mapM
          (fun u => (dlookup ls.1 (env.netloc u)).map (fun l => (u, l))) with
      | none => .error .keyError
      | some keyed =>
        match List.insertionSort (fun a b => a.2 ≤ b.2) keyed with
        | [] => .error .indexError
        | (u, _) :: _ => .ok (u, ls.2.1)

end ReleaseSource

/-- `class SourceRegistry`: the insertion-ordered mirror-name → mirror
mapping loaded from configuration (the JSON parsing itself is external
glue; the registry is taken as given). -/
structure SourceRegistry where
  registry : List (String × ReleaseSource)
  timeout : Nat := 2
  deriving DecidableEq, Repr

namespace SourceRegistry

/-- One step of the `records.update(src.latencies)` loop of the
`latencies` property: merge one source's map into the accumulated record
(overwriting shared hosts) and thread the source's updated state. -/
def latFold (env : Env)
    (acc : List (String × Latency) × List (String × ReleaseSource))
    (nsrc : String × ReleaseSource) :
    List (String × Latency) × List (String × ReleaseSource) :=
  let ls := nsrc.2.latenciesSt env
  (ls.1.foldl (fun d hv => dinsert d hv.1 hv.2) acc.1,
   acc.2 ++ [(nsrc.1, ls.2.1)])

/-- Property `latencies`: merge every source's `latencies` map with
`dict.update` (later sources overwrite shared hosts), threading each
source's lazy cache population. -/
def latenciesSt (env : Env) (reg : SourceRegistry) :
    List (String × Latency) × SourceRegistry :=
  let step := reg.registry.foldl (latFold env)
    (([] : List (String × Latency)), ([] : List (String × ReleaseSource)))
  (step.1, { reg with registry := step.2 })

/-- The list comprehension `[src.get_url(...) for src in
registry.values()]`, threading each source's updated state; the first
exception propagates. -/
def getUrlsList (env : Env) (v sys arch : String) :
    List (String × ReleaseSource) →
    Except PyErr (List String × List (String × ReleaseSource))
  | [] => .ok ([], [])
  | (n, src) :: rest => do
    let us ← src.get_url env v sys arch
    let tail ← getUrlsList env v sys arch rest
    .ok (us.1 :: tail.1, (n, us.2) :: tail.2)

/-- Method `get_urls(plain_version, system, architecture)`, instrumented
to keep each URL paired with the sort key (the merged-view latency of its
host) that `url_list.sort(key=...)` computed for it. -/
def get_urls_keyed (env : Env) (reg : SourceRegistry)
    (v sys arch : String) :
    Except PyErr (List (String × Latency) × SourceRegistry) := do
  let ul ← getUrlsList env v sys arch reg.registry
  let reg1 : SourceRegistry := { reg with registry := ul.2 }
  let gl := reg1.latenciesSt env
  match ul.1.mapM
      (fun u => (dlookup gl.1 (env.netloc u)).map (fun l => (u, l))) with
  | none => .error .keyError
  | some keyed =>
    .ok (List.insertionSort (fun a b => a.2 ≤ b.2) keyed, gl.2)

/-- Method `get_urls`: one best URL per mirror, sorted ascending by the
latency of the URL's host under the merged latency view. -/
def get_urls (env : Env) (reg : SourceRegistry) (v sys arch : String) :
    Except PyErr (List String × SourceRegistry) :=
  (reg.get_urls_keyed env v sys arch).map
    (fun r => (r.1.map Prod.fst, r.2))

end SourceRegistry

/-- `is_url_available(url, timeout)`: head-probe `url`; a
`RequestException` or a 4xx status is `False` (Unavailable); a 301/302
recurses into the `Location` header target with the same timeout (raising
`KeyError` if the header is absent); every other status is `True`
(Available).  `fuel` models Python's finite recursion depth. -/
def is_url_available (env : Env) : Nat → String → Nat → Except PyErr Bool
  | 0, _, _ => .error .recursionError
  | fuel + 1, url, timeout =>
    match env.head url timeout with
    | .failure => .ok false
    | .response status headers =>
      if status / 100 = 4 then .ok false
      else if status = 301 ∨ status = 302 then
        match dlookup headers "Location" with
        | some new_url => is_url_available env fuel new_url timeout
        | none => .error .keyError
      else .ok true

/-- The probing loop of `query_download_url`: walk the (already
flattened) candidate sequence, return the first URL whose availability
check succeeds, together with the trace of candidate URLs probed at the
top level (one entry per loop iteration). -/
def try_urls (avail : String → Except PyErr Bool) :
    List String → Except PyErr (Option String × List String)
  | [] => .ok (none, [])
  | u :: rest => do
    let b ← avail u
    if b then .ok (some u, [u])
    else do
      let r ← try_urls avail rest
      .ok (r.1, u :: r.2)

/-- `query_download_url(version, system, arch, max_try, timeout)`,
instrumented with the trace of top-level availability probes: rank
candidates once via the registry, chain `max_try` full passes over the
ranked list, and return the first candidate URL that probes Available, or
`none` when every probe of every pass fails.  `fuel` bounds the redirect
recursion depth of each probe (Python's recursion limit). -/
def query_download_url_traced (env : Env) (reg : SourceRegistry)
    (version system arch : String) (max_try fuel timeout : Nat) :
    Except PyErr (Option String × List String × SourceRegistry) := do
  let ul ← reg.get_urls env version system arch
  let url_list := (List.replicate max_try ul.1).flatten
  let r ← try_urls (fun u => is_url_available env fuel u timeout) url_list
  .ok (r.1, r.2, ul.2)

/-- `query_download_url`: the resolution entry point; returns the first
confirmed candidate URL or `none`. -/
def query_download_url (env : Env) (reg : SourceRegistry)
    (version system arch : String) (max_try fuel timeout : Nat) :
    Except PyErr (Option String × SourceRegistry) :=
  (query_download_url_traced env reg version system arch max_try fuel
    timeout).map (fun r => (r.1, r.2.2))

/-! ### Dictionary lemmas -/

theorem dinsert_ne_nil [DecidableEq α] (d : List (α × β)) (k : α) (v : β) :
    dinsert d k v ≠ [] := by
  cases d with
  | nil => simp [dinsert]
  | cons p rest =>
    simp only [dinsert]
    split <;> simp

theorem foldl_dinsert_ne_nil [DecidableEq α] (f : α → β) (ks : List α) :
    ∀ d : List (α × β), d ≠ [] →
      ks.foldl (fun d k => dinsert d k (f k)) d ≠ [] := by
  induction ks with
  | nil => intro d hd; simpa using hd
  | cons k ks ih =>
    intro d _
    simpa using ih (dinsert d k (f k)) (dinsert_ne_nil d k (f k))

theorem dictOf_ne_nil [DecidableEq α] (f : α → β) (ks : List α)
    (h : ks ≠ []) : dictOf ks f ≠ [] := by
  cases ks with
  | nil => exact absurd rfl h
  | cons k ks =>
    simpa [dictOf] using
      foldl_dinsert_ne_nil f ks (dinsert [] k (f k)) (dinsert_ne_nil [] k (f k))

theorem dlookup_dinsert [DecidableEq α] (d : List (α × β)) (k k' : α) (v : β) :
    dlookup (dinsert d k' v) k = if k = k' then some v else dlookup d k := by
  induction d with
  | nil => simp [dinsert, dlookup]
  | cons p rest ih =>
    obtain ⟨pk, pv⟩ := p
    by_cases hp : k' = pk
    · simp only [dinsert, if_pos hp, dlookup]
      by_cases hk : k = k'
      · simp [hk]
      · have hkpk : ¬ k = pk := by rw [← hp]; exact hk
        simp [hk, hkpk]
    · simp only [dinsert, if_neg hp, dlookup, ih]
      by_cases hk : k = pk
      · have hkk : ¬ k = k' := fun h => hp (h.symm.trans hk)
        have hpk : ¬ pk = k' := fun h => hp h.symm
        simp [hk, hkk, hpk]
      · by_cases hkk : k = k' <;> simp [hk, hkk]
        intro h
        exact absurd h hp

theorem foldl_dinsert_dlookup_not_mem [DecidableEq α] (f : α → β)
    (ks : List α) : ∀ (acc : List (α × β)) (k : α), k ∉ ks →
      dlookup (ks.foldl (fun d x => dinsert d x (f x)) acc) k =
        dlookup acc k := by
  induction ks with
  | nil => intro acc k _; rfl
  | cons x ks ih =>
    intro acc k hk
    simp only [List.mem_cons, not_or] at hk
    simp only [List.foldl_cons]
    rw [ih _ k hk.2, dlookup_dinsert, if_neg hk.1]

theorem foldl_dinsert_dlookup_mem [DecidableEq α] (f : α → β)
    (ks : List α) : ∀ (acc : List (α × β)) (k : α), k ∈ ks →
      dlookup (ks.foldl (fun d x => dinsert d x (f x)) acc) k =
        some (f k) := by
  induction ks with
  | nil => intro acc k hk; simp at hk
  | cons x ks ih =>
    intro acc k hk
    simp only [List.foldl_cons]
    by_cases hks : k ∈ ks
    · exact ih _ k hks
    · have hx : k = x := by
        rcases List.mem_cons.1 hk with h | h
        · exact h
        · exact absurd h hks
      rw [foldl_dinsert_dlookup_not_mem f ks _ k hks, hx,
        dlookup_dinsert, if_pos rfl]

theorem dictOf_dlookup_mem [DecidableEq α] (f : α → β) (ks : List α)
    (k : α) (h : k ∈ ks) : dlookup (dictOf ks f) k = some (f k) :=
  foldl_dinsert_dlookup_mem f ks [] k h

/-! ### Option `mapM` lemmas -/

theorem mapM_some_length {α β : Type} {f : α → Option β} :
    ∀ {l : List α} {r : List β}, l.mapM f = some r → r.length = l.length := by
  intro l
  induction l with
  | nil =>
    intro r h
    rw [← List.mapM'_eq_mapM] at h
    simp only [List.mapM'] at h
    cases h
    rfl
  | cons a l ih =>
    intro r h
    rw [← List.mapM'_eq_mapM] at h
    simp only [List.mapM', Option.pure_def, Option.bind_eq_bind,
      Option.bind_eq_some, Option.some.injEq] at h
    obtain ⟨b, _, r', hr', hrr⟩ := h
    rw [List.mapM'_eq_mapM] at hr'
    simp [← hrr, ih hr']

theorem mapM_some_mem {α β : Type} {f : α → Option β} :
    ∀ {l : List α} {r : List β}, l.mapM f = some r →
      ∀ b ∈ r, ∃ a ∈ l, f a = some b := by
  intro l
  induction l with
  | nil =>
    intro r h
    rw [← List.mapM'_eq_mapM] at h
    simp only [List.mapM'] at h
    cases h
    intro b hb
    simp at hb
  | cons a l ih =>
    intro r h
    rw [← List.mapM'_eq_mapM] at h
    simp only [List.mapM', Option.pure_def, Option.bind_eq_bind,
      Option.bind_eq_some, Option.some.injEq] at h
    obtain ⟨b, hb, r', hr', hrr⟩ := h
    rw [List.mapM'_eq_mapM] at hr'
    intro c hc
    rw [← hrr] at hc
    rcases List.mem_cons.1 hc with h | h
    · exact ⟨a, List.mem_cons_self a l, h ▸ hb⟩
    · obtain ⟨a', ha', hfa'⟩ := ih hr' c h
      exact ⟨a', List.mem_cons_of_mem a ha', hfa'⟩

theorem mapM_some_ne_nil {α β : Type} {f : α → Option β} {l : List α}
    {r : List β} (h : l.mapM f = some r) (hr : r ≠ []) : l ≠ [] := by
  intro hl
  apply hr
  have := mapM_some_length h
  rw [hl] at this
  simpa using List.length_eq_zero.1 this

/-! ### Probing-loop lemmas -/

theorem try_urls_all_false {avail : String → Except PyErr Bool} :
    ∀ {l : List String}, (∀ u ∈ l, avail u = .ok false) →
      try_urls avail l = .ok (none, l) := by
  intro l
  induction l with
  | nil => intro _; rfl
  | cons u rest ih =>
    intro h
    have hu := h u (List.mem_cons_self u rest)
    have hrest := ih (fun x hx => h x (List.mem_cons_of_mem u hx))
    simp [try_urls, hu, hrest, bind, Except.bind]

theorem try_urls_first_true {avail : String → Except PyErr Bool} :
    ∀ (pre : List String) (u : String) (post : List String),
      (∀ x ∈ pre, avail x = .ok false) → avail u = .ok true →
      try_urls avail (pre ++ u :: post) = .ok (some u, pre ++ [u]) := by
  intro pre
  induction pre with
  | nil =>
    intro u post _ hu
    simp [try_urls, hu, bind, Except.bind]
  | cons x pre ih =>
    intro u post h hu
    have hx := h x (List.mem_cons_self x pre)
    have hrest := ih u post (fun y hy => h y (List.mem_cons_of_mem x hy)) hu
    simp [try_urls, hx, hrest, bind, Except.bind]

theorem try_urls_mem {avail : String → Except PyErr Bool} :
    ∀ {l : List String} {u : String} {tr : List String},
      try_urls avail l = .ok (some u, tr) → u ∈ l := by
  intro l
  induction l with
  | nil => intro u tr h; simp [try_urls] at h
  | cons x rest ih =>
    intro u tr h
    simp only [try_urls, bind, Except.bind] at h
    cases hx : avail x with
    | error e => rw [hx] at h; simp at h
    | ok b =>
      rw [hx] at h
      cases b with
      | true => simp_all
      | false =>
        simp only [Bool.false_eq_true, if_false] at h
        cases hr : try_urls avail rest with
        | error e => rw [hr] at h; simp at h
        | ok p =>
          rw [hr] at h
          simp only [Except.ok.injEq, Prod.mk.injEq] at h
          rcases p with ⟨po, ptr⟩
          have : po = some u := by simp_all
          exact List.mem_cons_of_mem x (ih (this ▸ hr))

/-! ### Latency-cache state lemmas -/

theorem ReleaseSource.latenciesSt_populated (env : Env) (s : ReleaseSource)
    (h : s._latencies ≠ []) : s.latenciesSt env = (s._latencies, s, 0) := by
  simp [ReleaseSource.latenciesSt, List.isEmpty_iff, h]

theorem ReleaseSource.latenciesSt_cache_ne_nil (env : Env)
    (s : ReleaseSource) (h : s.urls ++ s.latest_urls ≠ []) :
    ((s.latenciesSt env).2.1)._latencies ≠ [] := by
  by_cases hc : s._latencies = []
  · rw [ReleaseSource.latenciesSt, if_pos (List.isEmpty_iff.2 hc)]
    simp only [ReleaseSource.computeLatencies]
    exact dictOf_ne_nil _ _ (by simpa using h)
  · rw [ReleaseSource.latenciesSt_populated env s hc]
    exact hc

theorem ReleaseSource.get_url_ok_cache (env : Env) (s : ReleaseSource)
    (v sys arch : String) (u : String) (s1 : ReleaseSource)
    (h : s.get_url env v sys arch = .ok (u, s1)) : s1._latencies ≠ [] := by
  rw [ReleaseSource.get_url] at h
  set tl := if v = "latest" then s.latest_url_templates else s.url_templates
    with htl
  cases hm : tl.mapM (fun t => env.substitute t v sys arch) with
  | none => rw [hm] at h; cases h
  | some url_list =>
    rw [hm] at h
    cases url_list with
    | nil => cases h
    | cons u0 rest =>
      have htl_ne : tl ≠ [] := mapM_some_ne_nil hm (by simp)
      have hnil : s.urls ++ s.latest_urls ≠ [] := by
        intro hboth
        obtain ⟨h1, h2⟩ := List.append_eq_nil.1 hboth
        apply htl_ne
        rw [htl]
        split
        · exact h2
        · exact h1
      have hcne := ReleaseSource.latenciesSt_cache_ne_nil env s hnil
      dsimp only at h
      cases hk : (u0 :: rest).mapM (fun u =>
          (dlookup (s.latenciesSt env).1 (env.netloc u)).map
            (fun l => (u, l))) with
      | none => rw [hk] at h; cases h
      | some keyed =>
        rw [hk] at h
        dsimp only at h
        cases hms : List.insertionSort
            (fun (a b : String × Latency) => a.2 ≤ b.2) keyed with
        | nil => rw [hms] at h; cases h
        | cons p rest2 =>
          rw [hms] at h
          obtain ⟨pu, pl⟩ := p
          dsimp only at h
          cases h
          exact hcne

theorem SourceRegistry.getUrlsList_ok (env : Env) (v sys arch : String) :
    ∀ (rs : List (String × ReleaseSource)) (us : List String)
      (rs' : List (String × ReleaseSource)),
      SourceRegistry.getUrlsList env v sys arch rs = .ok (us, rs') →
      us.length = rs.length ∧ rs'.length = rs.length ∧
        ∀ p ∈ rs', p.2._latencies ≠ [] := by
  intro rs
  induction rs with
  | nil =>
    intro us rs' h
    simp only [SourceRegistry.getUrlsList, Except.ok.injEq,
      Prod.mk.injEq] at h
    obtain ⟨h1, h2⟩ := h
    simp [← h1, ← h2]
  | cons p rest ih =>
    obtain ⟨n, src⟩ := p
    intro us rs' h
    simp only [SourceRegistry.getUrlsList, bind, Except.bind] at h
    cases hg : src.get_url env v sys arch with
    | error e => rw [hg] at h; cases h
    | ok q =>
      rw [hg] at h
      obtain ⟨u, src'⟩ := q
      dsimp only at h
      cases ht : SourceRegistry.getUrlsList env v sys arch rest with
      | error e => rw [ht] at h; cases h
      | ok tail =>
        rw [ht] at h
        obtain ⟨tus, trs⟩ := tail
        dsimp only at h
        obtain ⟨htus, htrs⟩ : us = u :: tus ∧ rs' = (n, src') :: trs := by
          cases h; exact ⟨rfl, rfl⟩
        obtain ⟨ih1, ih2, ih3⟩ := ih tus trs ht
        refine ⟨by simp [htus, ih1], by simp [htrs, ih2], ?_⟩
        intro q hq
        rw [htrs] at hq
        rcases List.mem_cons.1 hq with hq | hq
        · rw [hq]
          exact ReleaseSource.get_url_ok_cache env src v sys arch u src' hg
        · exact ih3 q hq

theorem SourceRegistry.latFold_state_populated (env : Env) :
    ∀ (rs : List (String × ReleaseSource))
      (acc : List (String × Latency) × List (String × ReleaseSource)),
      (∀ p ∈ rs, p.2._latencies ≠ []) →
      (rs.foldl (SourceRegistry.latFold env) acc).2 = acc.2 ++ rs := by
  intro rs
  induction rs with
  | nil => intro acc _; simp
  | cons p rest ih =>
    obtain ⟨n, src⟩ := p
    intro acc h
    have hsrc : src._latencies ≠ [] :=
      h (n, src) (List.mem_cons_self _ _)
    have hrest : ∀ q ∈ rest, q.2._latencies ≠ [] :=
      fun q hq => h q (List.mem_cons_of_mem _ hq)
    simp only [List.foldl_cons]
    rw [ih _ hrest]
    simp [SourceRegistry.latFold,
      ReleaseSource.latenciesSt_populated env src hsrc]

theorem SourceRegistry.latenciesSt_state_populated (env : Env)
    (reg : SourceRegistry)
    (h : ∀ p ∈ reg.registry, p.2._latencies ≠ []) :
    (reg.latenciesSt env).2 = reg := by
  show { reg with registry :=
    (reg.registry.foldl (SourceRegistry.latFold env) ([], [])).2 } = reg
  rw [SourceRegistry.latFold_state_populated env reg.registry ([], []) h]
  rfl

/-! ### Concrete fixtures for closed evaluations -/

/-- A concrete environment for evaluating the embedding on closed inputs:
every URL is its own host and address, every latency probe reports zero,
every template substitutes to itself, and the head probe is the single
point of variation. -/
def testEnv (hd : String → Nat → HeadResult) : Env where
  netloc := fun u => u
  scheme := fun _ => "http"
  query_ip := fun h => h
  scheme_port := fun _ => 80
  port_response_time := fun _ _ _ => (0 : Latency)
  substitute := fun t _ _ _ => some t
  head := hd

/-- Head oracle: every URL answers HTTP 200. -/
def headOk : String → Nat → HeadResult := fun _ _ => .response 200 []

/-- Head oracle: every probe fails at the network level. -/
def headFail : String → Nat → HeadResult := fun _ _ => .failure

/-- Head oracle: `hA` answers 302 with `Location: hB`; everything else
answers 200. -/
def headRedirect : String → Nat → HeadResult := fun u _ =>
  if u = "hA" then .response 302 [("Location", "hB")] else .response 200 []

/-- Head oracle: every URL answers HTTP 500. -/
def head500 : String → Nat → HeadResult := fun _ _ => .response 500 []

/-- Head oracle: `u` answers 307 with `Location: v`; everything else
answers 404. -/
def head307 : String → Nat → HeadResult := fun s _ =>
  if s = "u" then .response 307 [("Location", "v")] else .response 404 []

/-- Head oracle: every URL answers 301 with no headers at all. -/
def headNoLoc : String → Nat → HeadResult := fun _ _ => .response 301 []

/-- A one-mirror fixture whose single stable and latest template is the
literal URL `hA`. -/
def srcA : ReleaseSource :=
  { name := "A", url_templates := ["hA"], latest_url_templates := ["hA"] }

/-- `srcA` after its latency cache has been populated under `testEnv`. -/
def srcAPop : ReleaseSource :=
  { name := "A", url_templates := ["hA"], latest_url_templates := ["hA"],
    _latencies := [("hA", (0 : Latency))] }

/-- A registry owning only `srcA`. -/
def regA : SourceRegistry := { registry := [("A", srcA)] }

/-- `regA` after `srcA`'s latency cache has been populated. -/
def regAPop : SourceRegistry := { registry := [("A", srcAPop)] }

/-- A mirror with a stable template but no latest templates. -/
def srcNoLatest : ReleaseSource :=
  { name := "C", url_templates := ["hA"], latest_url_templates := [] }

/-- An environment where the template string `bad` is missing a
placeholder (its substitution raises `KeyError`) and all probes fail. -/
def envBad : Env :=
  { testEnv headFail with
    substitute := fun t _ _ _ => if t = "bad" then none else some t }

/-- A mirror whose only stable template is the misconfigured `bad`. -/
def srcBad : ReleaseSource :=
  { name := "B", url_templates := ["bad"], latest_url_templates := [] }

/-- A registry owning the misconfigured `srcBad` followed by the healthy
`srcA`. -/
def regBad : SourceRegistry := { registry := [("B", srcBad), ("A", srcA)] }

/-- A registry owning the healthy `srcA` first and the misconfigured
`srcBad` second. -/
def regBad2 : SourceRegistry := { registry := [("A", srcA), ("B", srcBad)] }

/-! ### Claim C9 -/

/-- C9: if `get_url` is called on a mirror whose selected template list is
empty (e.g. version `"latest"` with an empty latest-template list), the
operation raises an indexing error (`url_list[0]` on an empty list)
instead of returning a URL or falling back to the other template list. -/
theorem C9_get_url_empty_latest_raises (env : Env) (s : ReleaseSource)
    (sys arch : String) (h : s.latest_url_templates = []) :
    s.get_url env "latest" sys arch = .error .indexError := by
  rw [ReleaseSource.get_url]
  simp only [h, if_pos rfl]
  rfl

/-- Witness for C9 at a concrete mirror with stable templates but no
latest templates. -/
theorem C9_witness :
    ReleaseSource.get_url (testEnv headFail) srcNoLatest "latest"
      "linux" "x86_64" = .error .indexError :=
  C9_get_url_empty_latest_raises (testEnv headFail) srcNoLatest
    "linux" "x86_64" rfl

/-! ### Claim C5 -/

/-- C5 counterexample: a probed URL answering HTTP 500 (neither 2xx, nor a
redirect, nor 4xx) is classified Available (`True`), not Unavailable as
the claim states. -/
theorem C5_counterexample :
    (testEnv head500).head "u" 10 = .response 500 [] ∧
    is_url_available (testEnv head500) 1 "u" 10 = .ok true ∧
    is_url_available (testEnv head500) 1 "u" 10 ≠ .ok false := by
  refine ⟨rfl, rfl, ?_⟩
  intro h
  simp [is_url_available, testEnv, head500] at h

/-- C5 amended: every response status that is neither 4xx nor exactly 301
or 302 — including every 5xx — makes `is_url_available` classify the URL
as Available (`True`). -/
theorem C5_amended_non4xx_available (env : Env) (fuel timeout : Nat)
    (url : String) (status : Nat) (headers : List (String × String))
    (hh : env.head url timeout = .response status headers)
    (h4 : status / 100 ≠ 4) (h301 : status ≠ 301) (h302 : status ≠ 302) :
    is_url_available env (fuel + 1) url timeout = .ok true := by
  simp [is_url_available, hh, h4, h301, h302]

/-- Witness for C5's amended theorem at status 500. -/
theorem C5_witness :
    is_url_available (testEnv head500) 1 "u" 10 = .ok true :=
  C5_amended_non4xx_available (testEnv head500) 0 10 "u" 500 [] rfl
    (by decide) (by decide) (by decide)

/-! ### Claim C6 -/

/-- C6 counterexample: a 307 redirect carrying a `Location` header is
treated as a terminal Available outcome — the target is not re-probed
(probing the target directly yields Unavailable, so a recursive re-probe
would have returned `False`). -/
theorem C6_counterexample :
    (testEnv head307).head "u" 10 = .response 307 [("Location", "v")] ∧
    is_url_available (testEnv head307) 5 "u" 10 = .ok true ∧
    is_url_available (testEnv head307) 4 "v" 10 = .ok false := by
  refine ⟨rfl, ?_, ?_⟩ <;> simp [is_url_available, testEnv, head307]

/-- C6 amended: only statuses 301 and 302 are redirects for the
availability check; for those, when a `Location` header is present, the
check recursively re-probes the target with the same timeout. -/
theorem C6_amended_301_302_recurse (env : Env) (fuel timeout : Nat)
    (url new_url : String) (status : Nat)
    (headers : List (String × String))
    (hh : env.head url timeout = .response status headers)
    (hst : status = 301 ∨ status = 302)
    (hloc : dlookup headers "Location" = some new_url) :
    is_url_available env (fuel + 1) url timeout =
      is_url_available env fuel new_url timeout := by
  rcases hst with h | h <;> subst h <;>
    simp [is_url_available, hh, hloc]

/-- Witness for C6's amended theorem: a 302 from `hA` to `hB` makes the
check on `hA` recurse into `hB`. -/
theorem C6_witness :
    is_url_available (testEnv headRedirect) 2 "hA" 10 =
      is_url_available (testEnv headRedirect) 1 "hB" 10 :=
  C6_amended_301_302_recurse (testEnv headRedirect) 1 10 "hA" "hB" 302
    [("Location", "hB")] rfl (Or.inr rfl) rfl

/-! ### Claim C10 -/

theorem is_url_available_false_cause (env : Env) (timeout : Nat) :
    ∀ (fuel : Nat) (url : String),
      is_url_available env fuel url timeout = .ok false →
      ∃ u', env.head u' timeout = .failure ∨
        ∃ st hs, env.head u' timeout = .response st hs ∧ st / 100 = 4 := by
  intro fuel
  induction fuel with
  | zero => intro url h; simp [is_url_available] at h
  | succ n ih =>
    intro url h
    rw [is_url_available] at h
    cases hh : env.head url timeout with
    | failure => exact ⟨url, Or.inl hh⟩
    | response st hs =>
      rw [hh] at h
      dsimp only at h
      by_cases h4 : st / 100 = 4
      · exact ⟨url, Or.inr ⟨st, hs, hh, h4⟩⟩
      · rw [if_neg h4] at h
        by_cases hst : st = 301 ∨ st = 302
        · rw [if_pos hst] at h
          cases hl : dlookup hs "Location" with
          | none => rw [hl] at h; cases h
          | some nu => rw [hl] at h; exact ih nu h
        · rw [if_neg hst] at h; cases h

/-- C10: a 301/302 response with no `Location` header makes
`is_url_available` raise a missing-key exception rather than classify the
URL as Unavailable; and a `False` (Unavailable) outcome only ever arises
from a network-level failure or a 4xx status somewhere along the probed
chain. -/
theorem C10_missing_location_raises (env : Env) (fuel timeout : Nat)
    (url : String) (status : Nat) (headers : List (String × String))
    (hh : env.head url timeout = .response status headers)
    (hst : status = 301 ∨ status = 302)
    (hloc : dlookup headers "Location" = none) :
    is_url_available env (fuel + 1) url timeout = .error .keyError ∧
    ∀ (f : Nat) (u : String),
      is_url_available env f u timeout = .ok false →
      ∃ u', env.head u' timeout = .failure ∨
        ∃ st hs, env.head u' timeout = .response st hs ∧ st / 100 = 4 := by
  constructor
  · have h4 : status / 100 ≠ 4 := by
      rcases hst with h | h <;> simp [h]
    rw [is_url_available, hh]
    dsimp only
    rw [if_neg h4, if_pos hst, hloc]
  · exact fun f u => is_url_available_false_cause env timeout f u

/-- Witness for C10 at a concrete 301 response with no headers. -/
theorem C10_witness :
    is_url_available (testEnv headNoLoc) 1 "u" 10 = .error .keyError :=
  (C10_missing_location_raises (testEnv headNoLoc) 0 10 "u" 301 [] rfl
    (Or.inl rfl) rfl).1

/-! ### Claim C1 -/

/-- C1 counterexample: the candidate `hA` redirects (302) to `hB`, which
answers 200, so the resolution succeeds via a redirect chain whose final
followed target is `hB` — yet `query_download_url` returns the originally
probed candidate `hA`, not the final target. -/
theorem C1_counterexample :
    (query_download_url (testEnv headRedirect) regA "1.0" "linux"
        "x86_64" 3 10 10).map (fun r => r.1) = .ok (some "hA") ∧
    (testEnv headRedirect).head "hA" 10 =
      .response 302 [("Location", "hB")] ∧
    is_url_available (testEnv headRedirect) 9 "hB" 10 = .ok true ∧
    "hA" ≠ "hB" := by
  refine ⟨?_, rfl, ?_, by decide⟩
  · rfl
  · simp [is_url_available, testEnv, headRedirect]

/-- C1 amended: the URL returned by `query_download_url` on success is
always one of the registry's candidate mirror URLs — the originally
probed candidate, never the redirect target it was followed to. -/
theorem C1_amended_returns_candidate (env : Env) (reg : SourceRegistry)
    (v sys arch : String) (max_try fuel timeout : Nat)
    (url_list : List String) (reg' : SourceRegistry) (u : String)
    (reg'' : SourceRegistry)
    (hg : reg.get_urls env v sys arch = .ok (url_list, reg'))
    (hq : query_download_url env reg v sys arch max_try fuel timeout =
      .ok (some u, reg'')) :
    u ∈ url_list := by
  rw [query_download_url, query_download_url_traced] at hq
  rw [hg] at hq
  simp only [bind, Except.bind, Except.map] at hq
  cases ht : try_urls (fun u => is_url_available env fuel u timeout)
      ((List.replicate max_try url_list).flatten) with
  | error e => rw [ht] at hq; cases hq
  | ok p =>
    rw [ht] at hq
    obtain ⟨po, ptr⟩ := p
    dsimp only at hq
    have hpo : po = some u := by cases hq; rfl
    have hmem := try_urls_mem (hpo ▸ ht)
    obtain ⟨l, hl, hul⟩ := List.mem_flatten.1 hmem
    exact (List.eq_of_mem_replicate hl) ▸ hul

/-- Witness for C1's amended theorem at the concrete redirect fixture. -/
theorem C1_witness :
    "hA" ∈ ["hA"] :=
  C1_amended_returns_candidate (testEnv headRedirect) regA "1.0" "linux"
    "x86_64" 3 10 10 ["hA"] regAPop "hA" regAPop rfl rfl

/-! ### Claim C2 -/

/-- C2 counterexample: in a two-mirror registry whose first mirror's only
template is missing a placeholder, `get_urls` propagates the template
error (`KeyError`) and aborts — it does not skip the bad mirror and
return the healthy mirror's candidate, even though that mirror's own
`get_url` succeeds. -/
theorem C2_counterexample :
    SourceRegistry.get_urls envBad regBad "1.0" "linux" "x86_64" =
      .error .keyError ∧
    regBad.registry.length = 2 ∧
    (ReleaseSource.get_url envBad srcA "1.0" "linux" "x86_64").map
      (fun r => r.1) = .ok "hA" := by
  refine ⟨rfl, rfl, rfl⟩

theorem SourceRegistry.getUrlsList_error_propagates (env : Env)
    (v sys arch : String) :
    ∀ (pre : List (String × ReleaseSource)) (n : String)
      (src : ReleaseSource) (rest : List (String × ReleaseSource))
      (e : PyErr),
      (∀ p ∈ pre, ∃ u s1, p.2.get_url env v sys arch = .ok (u, s1)) →
      src.get_url env v sys arch = .error e →
      SourceRegistry.getUrlsList env v sys arch
        (pre ++ (n, src) :: rest) = .error e := by
  intro pre
  induction pre with
  | nil =>
    intro n src rest e _ herr
    simp [SourceRegistry.getUrlsList, herr, bind, Except.bind]
  | cons q pre ih =>
    obtain ⟨m, qsrc⟩ := q
    intro n src rest e hpre herr
    obtain ⟨u, s1, hq⟩ := hpre (m, qsrc) (List.mem_cons_self _ _)
    have htail := ih n src rest e
      (fun p hp => hpre p (List.mem_cons_of_mem _ hp)) herr
    simp [SourceRegistry.getUrlsList, hq, htail, bind, Except.bind]

theorem SourceRegistry.get_urls_keyed_length (env : Env)
    (reg : SourceRegistry) (v sys arch : String)
    (keyed : List (String × Latency)) (reg2 : SourceRegistry)
    (h : reg.get_urls_keyed env v sys arch = .ok (keyed, reg2)) :
    keyed.length = reg.registry.length := by
  rw [SourceRegistry.get_urls_keyed] at h
  simp only [bind, Except.bind] at h
  cases hul : SourceRegistry.getUrlsList env v sys arch reg.registry with
  | error e => rw [hul] at h; cases h
  | ok ul =>
    rw [hul] at h
    obtain ⟨us, rs'⟩ := ul
    dsimp only at h
    obtain ⟨hlen_us, _, _⟩ :=
      SourceRegistry.getUrlsList_ok env v sys arch reg.registry us rs' hul
    cases hmm : us.mapM (fun u =>
        (dlookup (SourceRegistry.latenciesSt env
          { reg with registry := rs' }).1 (env.netloc u)).map
          (fun l => (u, l))) with
    | none => rw [hmm] at h; cases h
    | some keyed0 =>
      rw [hmm] at h
      dsimp only at h
      rw [Except.ok.injEq, Prod.mk.injEq] at h
      obtain ⟨hk, _⟩ := h
      rw [← hk, List.length_insertionSort, mapM_some_length hmm, hlen_us]

/-- C2 amended: a template error raised by any mirror's best-URL
generation — at any position in the registry, once the mirrors before it
have produced their URLs — propagates out of `get_urls` and aborts the
whole resolution; no mirror is skipped, so on success the candidate list
has exactly one URL per mirror. -/
theorem C2_amended_template_error_propagates (env : Env)
    (reg : SourceRegistry) (v sys arch : String) :
    (∀ (pre : List (String × ReleaseSource)) (n : String)
       (src : ReleaseSource) (rest : List (String × ReleaseSource))
       (e : PyErr),
       reg.registry = pre ++ (n, src) :: rest →
       (∀ p ∈ pre, ∃ u s1, p.2.get_url env v sys arch = .ok (u, s1)) →
       src.get_url env v sys arch = .error e →
       reg.get_urls env v sys arch = .error e) ∧
    ∀ (urls : List String) (reg' : SourceRegistry),
      reg.get_urls env v sys arch = .ok (urls, reg') →
      urls.length = reg.registry.length := by
  constructor
  · intro pre n src rest e hreg hpre herr
    rw [SourceRegistry.get_urls, SourceRegistry.get_urls_keyed, hreg,
      SourceRegistry.getUrlsList_error_propagates env v sys arch
        pre n src rest e hpre herr]
    rfl
  · intro urls reg' h
    rw [SourceRegistry.get_urls] at h
    cases hx : reg.get_urls_keyed env v sys arch with
    | error e => rw [hx] at h; cases h
    | ok p =>
      rw [hx] at h
      obtain ⟨keyed, reg2⟩ := p
      simp only [Except.map] at h
      rw [Except.ok.injEq, Prod.mk.injEq] at h
      obtain ⟨hu, _⟩ := h
      rw [← hu, List.length_map]
      exact SourceRegistry.get_urls_keyed_length env reg v sys arch
        keyed reg2 hx

/-- Witness for C2's amended theorem: the misconfigured mirror sits
second in the registry, after a healthy mirror that succeeds, and its
template error still aborts `get_urls`. -/
theorem C2_witness :
    SourceRegistry.get_urls envBad regBad2 "1.0" "linux" "x86_64" =
      .error .keyError :=
  (C2_amended_template_error_propagates envBad regBad2 "1.0" "linux"
      "x86_64").1
    [("A", srcA)] "B" srcBad [] .keyError rfl
    (fun p hp => ⟨"hA", srcAPop, by rw [List.mem_singleton.1 hp]; rfl⟩)
    rfl

/-! ### Claim C3 -/

/-- C3: when no candidate ever probes Available, `query_download_url`
traverses the whole ranked candidate list end-to-end once per pass for
exactly `max_try` passes — `max_try * len(url_list)` top-level probes in
total — and then returns the not-found outcome as the value `none`, not
as a raised exception. -/
theorem C3_exhausts_all_passes (env : Env) (reg : SourceRegistry)
    (v sys arch : String) (max_try fuel timeout : Nat)
    (url_list : List String) (reg' : SourceRegistry)
    (hg : reg.get_urls env v sys arch = .ok (url_list, reg'))
    (hall : ∀ u ∈ url_list,
      is_url_available env fuel u timeout = .ok false) :
    query_download_url_traced env reg v sys arch max_try fuel timeout =
      .ok (none, (List.replicate max_try url_list).flatten, reg') ∧
    ((List.replicate max_try url_list).flatten).length =
      max_try * url_list.length ∧
    query_download_url env reg v sys arch max_try fuel timeout =
      .ok (none, reg') := by
  have hflat : ∀ u ∈ (List.replicate max_try url_list).flatten,
      is_url_available env fuel u timeout = .ok false := by
    intro u hu
    obtain ⟨l, hl, hul⟩ := List.mem_flatten.1 hu
    exact hall u ((List.eq_of_mem_replicate hl) ▸ hul)
  have htry := try_urls_all_false hflat
  have h1 : query_download_url_traced env reg v sys arch max_try fuel
      timeout = .ok (none, (List.replicate max_try url_list).flatten,
        reg') := by
    rw [query_download_url_traced, hg]
    simp [bind, Except.bind, htry]
  refine ⟨h1, ?_, ?_⟩
  · simp [List.length_flatten, List.map_replicate, List.sum_replicate,
      smul_eq_mul]
  · rw [query_download_url, h1]
    rfl

/-- Witness for C3 at a one-mirror fixture whose probes always fail:
three passes, then `none` as a value. -/
theorem C3_witness :
    query_download_url (testEnv headFail) regA "1.0" "linux" "x86_64"
      3 1 10 = .ok (none, regAPop) :=
  (C3_exhausts_all_passes (testEnv headFail) regA "1.0" "linux" "x86_64"
    3 1 10 ["hA"] regAPop rfl (fun _ _ => rfl)).2.2

/-! ### Claim C4 -/

/-- C4: candidates are probed in ranked order, pass after pass, and the
first candidate that probes Available is returned immediately: the probe
trace is exactly the failing prefix plus that candidate, so nothing later
in the same pass nor in any later pass is ever probed. -/
theorem C4_short_circuits_on_success (env : Env) (reg : SourceRegistry)
    (v sys arch : String) (max_try fuel timeout : Nat)
    (url_list : List String) (reg' : SourceRegistry)
    (pre : List String) (u : String) (post : List String)
    (hg : reg.get_urls env v sys arch = .ok (url_list, reg'))
    (hsplit : (List.replicate max_try url_list).flatten =
      pre ++ u :: post)
    (hpre : ∀ x ∈ pre, is_url_available env fuel x timeout = .ok false)
    (hu : is_url_available env fuel u timeout = .ok true) :
    query_download_url_traced env reg v sys arch max_try fuel timeout =
      .ok (some u, pre ++ [u], reg') := by
  rw [query_download_url_traced, hg]
  simp only [bind, Except.bind]
  rw [hsplit, try_urls_first_true pre u post hpre hu]

/-- Witness for C4: with an always-200 head probe the very first
candidate of the first pass wins and is the only probe in the trace. -/
theorem C4_witness :
    query_download_url_traced (testEnv headOk) regA "1.0" "linux"
      "x86_64" 3 1 10 = .ok (some "hA", [] ++ ["hA"], regAPop) :=
  C4_short_circuits_on_success (testEnv headOk) regA "1.0" "linux"
    "x86_64" 3 1 10 ["hA"] regAPop [] "hA" ["hA", "hA"] rfl rfl
    (fun x hx => absurd hx (List.not_mem_nil x)) rfl

/-! ### Claim C8 -/

theorem dlookup_dictOf_isSome [DecidableEq α] (f : α → β) (ks : List α)
    (k : α) (h : k ∈ ks) : (dlookup (dictOf ks f) k).isSome := by
  rw [dictOf_dlookup_mem f ks k h]
  rfl

theorem ReleaseSource.computeLatencies_complete (env : Env)
    (s : ReleaseSource) (url : String)
    (hu : url ∈ s.urls ++ s.latest_urls) :
    (dlookup (s.computeLatencies env).1 (env.netloc url)).isSome := by
  have hmem : env.netloc url ∈ (s.urls ++ s.latest_urls).map env.netloc :=
    List.mem_map_of_mem env.netloc hu
  exact dlookup_dictOf_isSome _ _ _ hmem

theorem ReleaseSource.computeLatencies_fst_eq_nil (env : Env)
    (s : ReleaseSource) (h : (s.computeLatencies env).1 = []) :
    s.urls ++ s.latest_urls = [] := by
  by_contra hne
  have hm : (s.urls ++ s.latest_urls).map env.netloc ≠ [] := by
    simpa using hne
  exact dictOf_ne_nil _ _ hm h

theorem ReleaseSource.computeLatencies_empty (env : Env)
    (s : ReleaseSource) (h : s.urls ++ s.latest_urls = []) :
    s.computeLatencies env = ([], 0) := by
  simp [ReleaseSource.computeLatencies, dictOf, h]

/-- C8: starting from the constructor's empty cache, the first access to
a Mirror's `latencies` populates the cache with an entry for every
distinct host appearing in either the stable or the latest template list,
and a second access returns the same stored mapping with the state
unchanged and zero latency probes performed. -/
theorem C8_cache_complete_then_stable (env : Env) (s : ReleaseSource)
    (h : s._latencies = []) :
    (∀ url ∈ s.urls ++ s.latest_urls,
      (dlookup (s.latenciesSt env).1 (env.netloc url)).isSome) ∧
    (s.latenciesSt env).2.1.latenciesSt env =
      ((s.latenciesSt env).1, (s.latenciesSt env).2.1, 0) := by
  have hfirst : s.latenciesSt env =
      ((s.computeLatencies env).1,
       { s with _latencies := (s.computeLatencies env).1 },
       (s.computeLatencies env).2) := by
    rw [ReleaseSource.latenciesSt, if_pos (List.isEmpty_iff.2 h)]
  constructor
  · intro url hu
    rw [hfirst]
    exact ReleaseSource.computeLatencies_complete env s url hu
  · rw [hfirst]
    dsimp only
    by_cases hm : (s.computeLatencies env).1 = []
    · have hnil := ReleaseSource.computeLatencies_fst_eq_nil env s hm
      have hce := ReleaseSource.computeLatencies_empty env s hnil
      have hs1 : ({ s with _latencies := (s.computeLatencies env).1 } :
          ReleaseSource) = s := by
        rw [hm, ← h]
      rw [hs1, ReleaseSource.latenciesSt, if_pos (List.isEmpty_iff.2 h),
        hce]
      dsimp only
      rw [show ({ s with _latencies := ([] : List (String × Latency)) } :
          ReleaseSource) = s from by rw [← h]]
    · have hm1 : ({ s with
          _latencies := (s.computeLatencies env).1 } :
            ReleaseSource)._latencies ≠ [] := hm
      rw [ReleaseSource.latenciesSt_populated env _ hm1]

/-- Witness for C8: a second access to `srcA`'s populated cache returns
the stored mapping with no further probes. -/
theorem C8_witness :
    (ReleaseSource.latenciesSt (testEnv headFail) srcA).2.1.latenciesSt
      (testEnv headFail) =
    ((ReleaseSource.latenciesSt (testEnv headFail) srcA).1,
     (ReleaseSource.latenciesSt (testEnv headFail) srcA).2.1, 0) :=
  (C8_cache_complete_then_stable (testEnv headFail) srcA rfl).2

/-! ### Claim C7 -/

instance : IsTotal (String × Latency) (fun a b => a.2 ≤ b.2) :=
  ⟨fun a b => le_total a.2 b.2⟩

instance : IsTrans (String × Latency) (fun a b => a.2 ≤ b.2) :=
  ⟨fun _ _ _ hab hbc => le_trans hab hbc⟩

/-- C7: on success, `get_urls` returns one candidate URL per mirror, and
the candidates are sorted ascending by the latency of each URL's host
under the merged global latency view of the returned registry state (the
failure sentinel `⊤` sorts last under this order). -/
theorem C7_one_url_per_mirror_sorted (env : Env) (reg : SourceRegistry)
    (v sys arch : String) (keyed : List (String × Latency))
    (reg2 : SourceRegistry)
    (h : reg.get_urls_keyed env v sys arch = .ok (keyed, reg2)) :
    reg.get_urls env v sys arch = .ok (keyed.map Prod.fst, reg2) ∧
    keyed.length = reg.registry.length ∧
    keyed.Pairwise (fun a b => a.2 ≤ b.2) ∧
    ∀ p ∈ keyed,
      dlookup (reg2.latenciesSt env).1 (env.netloc p.1) = some p.2 := by
  have hmap : reg.get_urls env v sys arch =
      .ok (keyed.map Prod.fst, reg2) := by
    rw [SourceRegistry.get_urls, h]
    rfl
  refine ⟨hmap, ?_⟩
  rw [SourceRegistry.get_urls_keyed] at h
  simp only [bind, Except.bind] at h
  cases hul : SourceRegistry.getUrlsList env v sys arch reg.registry with
  | error e => rw [hul] at h; cases h
  | ok ul =>
    rw [hul] at h
    obtain ⟨us, rs'⟩ := ul
    dsimp only at h
    obtain ⟨hlen_us, hlen_rs, hpop⟩ :=
      SourceRegistry.getUrlsList_ok env v sys arch reg.registry us rs' hul
    cases hmm : us.mapM (fun u =>
        (dlookup (SourceRegistry.latenciesSt env
          { reg with registry := rs' }).1 (env.netloc u)).map
          (fun l => (u, l))) with
    | none => rw [hmm] at h; cases h
    | some keyed0 =>
      rw [hmm] at h
      dsimp only at h
      rw [Except.ok.injEq, Prod.mk.injEq] at h
      obtain ⟨hk, hr2⟩ := h
      have hstate : (SourceRegistry.latenciesSt env
          { reg with registry := rs' }).2 =
          { reg with registry := rs' } :=
        SourceRegistry.latenciesSt_state_populated env
          { reg with registry := rs' } hpop
      refine ⟨?_, ?_, ?_⟩
      · rw [← hk, List.length_insertionSort, mapM_some_length hmm,
          hlen_us]
      · rw [← hk]
        exact List.sorted_insertionSort (fun a b => a.2 ≤ b.2) keyed0
      · intro p hp
        have hp0 : p ∈ keyed0 := by
          rw [← hk] at hp
          exact (List.mem_insertionSort _).1 hp
        obtain ⟨u, _, hfu⟩ := mapM_some_mem hmm p hp0
        rw [Option.map_eq_some'] at hfu
        obtain ⟨l, hl, hpl⟩ := hfu
        rw [← hr2, hstate]
        rw [← hpl]
        exact hl

/-- Witness fixtures for C7: two one-template mirrors whose hosts probe
at different latencies. -/
def envLat : Env :=
  { testEnv headFail with
    port_response_time := fun ip _ _ =>
      if ip = "fast" then (1 : Latency)
      else if ip = "slow" then (9 : Latency) else ⊤ }

/-- A mirror whose single stable template is the literal URL `fast`. -/
def srcFast : ReleaseSource :=
  { name := "F", url_templates := ["fast"], latest_url_templates := [] }

/-- A mirror whose single stable template is the literal URL `slow`. -/
def srcSlow : ReleaseSource :=
  { name := "S", url_templates := ["slow"], latest_url_templates := [] }

/-- A registry owning `srcSlow` first and `srcFast` second. -/
def regLat : SourceRegistry :=
  { registry := [("S", srcSlow), ("F", srcFast)] }

/-- `srcFast` with its latency cache populated under `envLat`. -/
def srcFastPop : ReleaseSource :=
  { name := "F", url_templates := ["fast"], latest_url_templates := [],
    _latencies := [("fast", (1 : Latency))] }

/-- `srcSlow` with its latency cache populated under `envLat`. -/
def srcSlowPop : ReleaseSource :=
  { name := "S", url_templates := ["slow"], latest_url_templates := [],
    _latencies := [("slow", (9 : Latency))] }

/-- `regLat` after both mirrors' caches have been populated. -/
def regLatPop : SourceRegistry :=
  { registry := [("S", srcSlowPop), ("F", srcFastPop)] }

/-- Witness for C7: the lower-latency mirror's URL is ranked first even
though its mirror is listed second in the registry. -/
theorem C7_witness :
    SourceRegistry.get_urls envLat regLat "1.0" "linux" "x86_64" =
      .ok ([("fast", (1 : Latency)), ("slow", (9 : Latency))].map
        Prod.fst, regLatPop) :=
  (C7_one_url_per_mirror_sorted envLat regLat "1.0" "linux" "x86_64"
    [("fast", (1 : Latency)), ("slow", (9 : Latency))] regLatPop rfl).1
